import Mathlib

/-!
Shallow embedding of the session core of `src/server.js` (a social-deduction
party-game server): participant registry, role/task allocation at round start,
sabotage with kill cooldown, vote tallying and resolution, win evaluation, and
the lobby reset.  JavaScript `Map`s become insertion-ordered association
lists, `Date.now()` becomes an explicit `now : Nat` parameter (milliseconds),
and each socket handler becomes a function from game state (plus its inputs)
to game state together with a value describing the events it emits.
-/

namespace CyberAmongUs

/-- Static task-catalog entry (`CREWMATE_TASKS` elements). -/
structure TaskEntry where
  id : String
  name : String
  duration : Nat
deriving DecidableEq, Repr

/-- The static task catalog `CREWMATE_TASKS`. -/
def CREWMATE_TASKS : List TaskEntry :=
  [ ⟨"network", "Network Security Log", 120⟩,
    ⟨"phishing", "Phishing Email Sort", 180⟩,
    ⟨"firewall", "Firewall Construction", 150⟩,
    ⟨"encryption", "Data Encryption", 100⟩,
    ⟨"backup", "System Backup", 90⟩ ]

/-- One slot of `taskProgress` (`{ completed, data }`); the opaque payload is
modelled as an optional string. -/
structure TaskSlot where
  completed : Bool
  data : Option String
deriving DecidableEq, Repr

/-- The `taskProgress` object of a player. -/
structure TaskProgress where
  tasksCompleted : Nat
  task1 : TaskSlot
  task2 : TaskSlot
  task3 : TaskSlot
deriving DecidableEq, Repr

/-- The blank `taskProgress` literal the server writes at join, at round
start, and at the return-to-lobby reset. -/
def freshTaskProgress : TaskProgress :=
  ⟨0, ⟨false, none⟩, ⟨false, none⟩, ⟨false, none⟩⟩

/-- The two role strings assigned at round start (`role` is `null` before). -/
inductive Role
  | impostor
  | crewmate
deriving DecidableEq, Repr

/-- A player record as stored in `gameState.players`. -/
structure Player where
  id : String
  name : String
  role : Option Role
  isAlive : Bool
  tasks : List TaskEntry
  sabotageCount : Nat
  taskProgress : TaskProgress
  vote : Option String
deriving DecidableEq, Repr

/-- The mutable session state the handlers touch: the player registry
(insertion-ordered, keyed by socket id) and the kill-cooldown ledger
(impostor id to last-kill timestamp in milliseconds). -/
structure GameState where
  players : List Player
  killCooldowns : List (String × Nat)
deriving DecidableEq, Repr

/-- `gameState.players.get(pid)`. -/
def findPlayer (s : GameState) (pid : String) : Option Player :=
  s.players.find? (fun p => p.id == pid)

/-- In-place mutation of the (unique-keyed) registry entry for `pid`. -/
def updatePlayer (ps : List Player) (pid : String) (f : Player → Player) :
    List Player :=
  ps.map (fun p => if p.id == pid then f p else p)

/-- `Map.set` on the player registry: replace in place if the key exists,
otherwise append (JavaScript `Map` insertion-order semantics). -/
def mapSetPlayer (ps : List Player) (pid : String) (p : Player) : List Player :=
  if ps.any (fun q => q.id == pid) then
    ps.map (fun q => if q.id == pid then p else q)
  else ps ++ [p]

/-- `Map.set` on the kill-cooldown ledger. -/
def setCooldown (ks : List (String × Nat)) (k : String) (v : Nat) :
    List (String × Nat) :=
  if ks.any (fun kv => kv.1 == k) then
    ks.map (fun kv => if kv.1 == k then (kv.1, v) else kv)
  else ks ++ [(k, v)]

/-- `gameState.killCooldowns.get(id) || 0`. -/
def lastKillTime (s : GameState) (pid : String) : Nat :=
  (s.killCooldowns.lookup pid).getD 0

/-- `getRandomTasks(count)`: the source shuffles a copy of `CREWMATE_TASKS`
(a permutation of the catalog, whichever one the random comparator yields)
and takes the first `count`; the shuffle result is passed in explicitly. -/
def getRandomTasks (shuffled : List TaskEntry) (count : Nat) : List TaskEntry :=
  shuffled.take count

/-- `join-lobby` handler: build a fresh default-state record (with the task
set sampled at join) and `players.set(socket.id, player)` — an unconditional
`Map.set`, with no duplicate-identity check. -/
def joinLobby (s : GameState) (pid dispName : String) (tasks : List TaskEntry) :
    GameState :=
  let player : Player :=
    { id := pid, name := dispName, role := none, isAlive := true,
      tasks := tasks, sabotageCount := 0, taskProgress := freshTaskProgress,
      vote := none }
  { s with players := mapSetPlayer s.players pid player }

/-- Per-round reset applied to every player inside the `start-game` handler's
`forEach`: assign the role and overwrite `isAlive`, `sabotageCount`, `vote`
and the whole `taskProgress` object with the blank literal. -/
def roundReset (r : Role) (p : Player) : Player :=
  { p with
    role := some r
    isAlive := true
    sabotageCount := 0
    vote := none
    taskProgress := freshTaskProgress }

/-- The `players.forEach((player, index) => ...)` of `start-game`: a player
whose index is in `impostorIndices` becomes impostor, the rest crewmates,
and every player gets the per-round reset. -/
def assignRolesAux (impostorIndices : List Nat) (i : Nat) :
    List Player → List Player
  | [] => []
  | p :: ps =>
      roundReset
        (if impostorIndices.contains i then Role.impostor else Role.crewmate) p
        :: assignRolesAux impostorIndices (i + 1) ps

/-- `start-game` handler state change: guard `players.length >= 1`; one
impostor index (the random draw, passed in explicitly) when there are at
least two players, none otherwise; then the indexed `forEach` reset.  The
kill-cooldown ledger is untouched. -/
def startGame (s : GameState) (impostorIdx : Nat) : GameState :=
  if 1 ≤ s.players.length then
    let impostorIndices : List Nat :=
      if 2 ≤ s.players.length then [impostorIdx] else []
    { s with players := assignRolesAux impostorIndices 0 s.players }
  else s

/-- The `restore-task-progress` emissions of the `start-game` handler: after
the reset loop, each crewmate is sent its (current) `taskProgress`. -/
def restoreEmits (s : GameState) : List (String × TaskProgress) :=
  s.players.filterMap (fun p =>
    if p.role == some Role.crewmate then some (p.id, p.taskProgress) else none)

/-- `save-task-progress` handler: crewmates only; stores the payload. -/
def saveTaskProgress (s : GameState) (pid : String) (tp : TaskProgress) :
    GameState :=
  match findPlayer s pid with
  | some p =>
      if p.role == some Role.crewmate then
        let ps := updatePlayer s.players pid (fun q => { q with taskProgress := tp })
        { s with players := ps }
      else s
  | none => s

/-- Events the `attempt-sabotage` handler can emit: `ignored` (precondition
failed, silently dropped), `cooldownRejected r` (the `kill-cooldown` notice
with `r` remaining seconds), or `hit n killed` (the `sabotage-attempt`
broadcast carrying the new count `n`; `killed = true` means the
`player-killed` broadcast and the 30-second `kill-cooldown-active` notice
also fired). -/
inductive SabotageOutcome
  | ignored
  | cooldownRejected (remainingSeconds : Nat)
  | hit (newCount : Nat) (killed : Bool)
deriving DecidableEq, Repr

/-- The target mutation of a lethal sabotage hit: `sabotageCount++` followed
by `isAlive = false`. -/
def killHit (p : Player) : Player :=
  { p with sabotageCount := p.sabotageCount + 1, isAlive := false }

/-- The target mutation of a non-lethal sabotage hit: `sabotageCount++`. -/
def countHit (p : Player) : Player :=
  { p with sabotageCount := p.sabotageCount + 1 }

/-- `attempt-sabotage` handler.  Guards only the roles (actor impostor,
target crewmate) — not aliveness.  Cooldown check: with `lastKillTime`
defaulting to 0, `cooldownRemaining = 30000 - (now - lastKillTime)`; the
attempt is rejected iff the remaining time is positive *and* the target's
`sabotageCount` is already at least 2.  Otherwise the count is incremented
and, at 3 or more, the target dies and the kill timestamp is recorded. -/
def attemptSabotage (s : GameState) (actorId targetId : String) (now : Nat) :
    GameState × SabotageOutcome :=
  match findPlayer s actorId, findPlayer s targetId with
  | some imp, some tgt =>
      if imp.role = some Role.impostor ∧ tgt.role = some Role.crewmate then
        let last := lastKillTime s actorId
        let cooldownRemaining : Int := 30000 - ((now : Int) - (last : Int))
        if 0 < cooldownRemaining ∧ 2 ≤ tgt.sabotageCount then
          (s, .cooldownRejected ((cooldownRemaining.toNat + 999) / 1000))
        else
          let newCount := tgt.sabotageCount + 1
          if 3 ≤ newCount then
            ({ players := updatePlayer s.players targetId killHit,
               killCooldowns := setCooldown s.killCooldowns actorId now },
             .hit newCount true)
          else
            ({ s with players := updatePlayer s.players targetId countHit },
             .hit newCount false)
      else (s, .ignored)
  | _, _ => (s, .ignored)

/-- `submit-vote` handler state change: alive players only; last vote wins. -/
def submitVote (s : GameState) (voterId : String) (votedFor : Option String) :
    GameState :=
  match findPlayer s voterId with
  | some p =>
      if p.isAlive then
        let ps := updatePlayer s.players voterId (fun q => { q with vote := votedFor })
        { s with players := ps }
      else s
  | none => s

/-- The `votes` tally object of `processVotes`: fold over the registry in
insertion order, counting each non-null vote under its target key; keys
appear in first-occurrence order, as in a JavaScript object literal. -/
def tallyVotes (ps : List Player) : List (String × Nat) :=
  ps.foldl (fun acc p =>
    match p.vote with
    | none => acc
    | some t =>
        if acc.any (fun kv => kv.1 == t) then
          acc.map (fun kv => if kv.1 == t then (kv.1, kv.2 + 1) else kv)
        else acc ++ [(t, 1)]) []

/-- The `voters` object of `processVotes`: voter id to chosen target, for
every player with a non-null vote, in registry order. -/
def voterMap (ps : List Player) : List (String × String) :=
  ps.filterMap (fun p => p.vote.map (fun v => (p.id, v)))

/-- Accumulator of the `Object.entries(votes).forEach` max/tie scan. -/
structure ScanResult where
  maxVotes : Nat
  ejectedPlayerId : Option String
  tie : Bool
deriving DecidableEq, Repr

/-- One iteration of the max/tie scan: a strictly larger count takes the
lead and clears the tie flag; an equal nonzero count sets it. -/
def scanStep (acc : ScanResult) (kv : String × Nat) : ScanResult :=
  if acc.maxVotes < kv.2 then ⟨kv.2, some kv.1, false⟩
  else if kv.2 = acc.maxVotes ∧ 0 < acc.maxVotes then { acc with tie := true }
  else acc

/-- The scan loop over the tally entries, in order. -/
def scanGo (acc : ScanResult) : List (String × Nat) → ScanResult
  | [] => acc
  | kv :: l => scanGo (scanStep acc kv) l

/-- The complete max/tie scan of `processVotes`. -/
def scanVotes (tally : List (String × Nat)) : ScanResult :=
  scanGo ⟨0, none, false⟩ tally

/-- Events `processVotes` can emit: the `player-ejected` broadcast (with the
ejected player's id, name and role plus the tally and per-voter map), the
`no-one-ejected` broadcast (tie flag and tally), or — when the scan's winner
is no longer in the registry — no event at all. -/
inductive VoteOutcome
  | ejected (playerId playerName : String) (role : Option Role)
      (votes : List (String × Nat)) (voters : List (String × String))
  | noOneEjected (tie : Bool) (votes : List (String × Nat))
  | silent
deriving DecidableEq, Repr

/-- The ejection branch of `processVotes`, guarded by
`if (ejectedPlayerId && maxVotes > 0 && !tie)`.  `ejectedPlayerId` is truthy
only when it is a *nonempty* string (the empty string is falsy in
JavaScript), so a leader id `""` falls through to the no-ejection broadcast;
a truthy leader that is no longer registered produces no broadcast at all. -/
def resolveStep (s : GameState) (votes : List (String × Nat))
    (voters : List (String × String)) (r : ScanResult) :
    List Player × VoteOutcome :=
  match r.ejectedPlayerId with
  | some pid =>
      if ¬ pid = "" ∧ 0 < r.maxVotes ∧ ¬ r.tie then
        match findPlayer s pid with
        | some ep =>
            (updatePlayer s.players pid (fun p => { p with isAlive := false }),
             .ejected pid ep.name ep.role votes voters)
        | none => (s.players, .silent)
      else (s.players, .noOneEjected r.tie votes)
  | none => (s.players, .noOneEjected r.tie votes)

/-- `processVotes`: tally, scan, resolve via `resolveStep`, then clear every
vote. -/
def processVotes (s : GameState) : GameState × VoteOutcome :=
  let votes := tallyVotes s.players
  let voters := voterMap s.players
  let step := resolveStep s votes voters (scanVotes votes)
  ({ s with players := step.1.map (fun p => { p with vote := none }) }, step.2)

/-- The two winner strings of `checkGameEnd`. -/
inductive Winner
  | crewmates
  | impostor
deriving DecidableEq, Repr

/-- `checkGameEnd`: first match wins — zero alive impostors (no check that
one ever existed), impostors outnumbering alive crewmates, all crewmates at
3 completed tasks; else an impostor win when the timer has run out. -/
def checkGameEnd (s : GameState) (timeRemaining : Int) :
    Option (Winner × String) :=
  let aliveCrewmates :=
    s.players.filter (fun p => p.isAlive && p.role == some Role.crewmate)
  let aliveImpostors :=
    s.players.filter (fun p => p.isAlive && p.role == some Role.impostor)
  let w1 : Option (Winner × String) :=
    if aliveImpostors.length = 0 then
      some (.crewmates, "All impostors eliminated")
    else if aliveCrewmates.length ≤ aliveImpostors.length then
      some (.impostor, "Impostors outnumber crewmates")
    else
      let crewmates := s.players.filter (fun p => p.role == some Role.crewmate)
      if crewmates.all (fun c => 3 ≤ c.taskProgress.tasksCompleted) then
        some (.crewmates, "All tasks completed")
      else none
  match w1 with
  | some w => some w
  | none =>
      if timeRemaining ≤ 0 then some (.impostor, "Time ran out") else none

/-- The deferred return-to-lobby reset of `endGame`: every player's role,
aliveness, sabotage count, vote and task progress are reset; the
kill-cooldown ledger is untouched. -/
def lobbyResetPlayer (p : Player) : Player :=
  { p with
    role := none
    isAlive := true
    sabotageCount := 0
    vote := none
    taskProgress := freshTaskProgress }

/-- The deferred lobby reset applied to the whole registry. -/
def lobbyReset (s : GameState) : GameState :=
  { s with players := s.players.map lobbyResetPlayer }

/-- `disconnect` handler state change: delete the player from the registry;
the kill-cooldown ledger is untouched. -/
def disconnect (s : GameState) (pid : String) : GameState :=
  match findPlayer s pid with
  | some _ => { s with players := s.players.filter (fun p => ¬ p.id == pid) }
  | none => s

/-! ### Concrete example states used by counterexamples and witnesses -/

/-- A fresh impostor record for concrete scenarios. -/
def mkImp (pid nm : String) : Player :=
  { id := pid, name := nm, role := some Role.impostor, isAlive := true,
    tasks := [], sabotageCount := 0, taskProgress := freshTaskProgress,
    vote := none }

/-- A fresh crewmate record for concrete scenarios. -/
def mkCrew (pid nm : String) : Player :=
  { id := pid, name := nm, role := some Role.crewmate, isAlive := true,
    tasks := [], sabotageCount := 0, taskProgress := freshTaskProgress,
    vote := none }

/-! ### General helper lemmas -/

lemma find?_map_pred {α : Type} (g : α → α) (q : α → Bool)
    (hg : ∀ p, q (g p) = q p) (l : List α) :
    (l.map g).find? q = (l.find? q).map g := by
  rw [List.find?_map]
  have hq : q ∘ g = q := funext hg
  rw [hq]

lemma zip_map_snd {α : Type} (g : α → α) (l : List α) :
    ∀ pr ∈ l.zip (l.map g), pr.2 = g pr.1 := by
  induction l with
  | nil => simp
  | cons a l ih =>
      intro pr hpr
      rw [List.map_cons, List.zip_cons_cons] at hpr
      rcases List.mem_cons.mp hpr with h | h
      · simp [h]
      · exact ih pr h

/-- Updating one registry entry with an id-preserving mutation does not
change the result of looking up a different id. -/
lemma find?_updatePlayer_ne (f : Player → Player) {ps : List Player}
    {v w : String} (hf : ∀ p, (f p).id = p.id) (hvw : w ≠ v) :
    (updatePlayer ps v f).find? (fun p => p.id == w) =
      ps.find? (fun p => p.id == w) := by
  unfold updatePlayer
  rw [find?_map_pred (fun p => if p.id == v then f p else p)
    (fun p => p.id == w) ?hpred ps]
  case hpred =>
    intro p
    by_cases h : (p.id == v) = true <;> simp [h, hf]
  cases hfind : ps.find? (fun p => p.id == w) with
  | none => rfl
  | some p0 =>
      have hp0 : p0.id = w := by
        have := List.find?_some hfind
        simpa [beq_iff_eq] using this
      have hne : (p0.id == v) = false := by
        simp only [hp0, beq_eq_false_iff_ne]
        exact hvw
      simp only [Option.map_some']
      congr 1
      rw [hne]
      simp

/-- Two id-preserving updates at distinct ids commute. -/
lemma updatePlayer_comm {ps : List Player} {v w : String}
    {f g : Player → Player} (hf : ∀ p, (f p).id = p.id)
    (hg : ∀ p, (g p).id = p.id) (hvw : v ≠ w) :
    updatePlayer (updatePlayer ps v f) w g =
      updatePlayer (updatePlayer ps w g) v f := by
  have hwv : w ≠ v := Ne.symm hvw
  unfold updatePlayer
  rw [List.map_map, List.map_map]
  apply List.map_congr_left
  intro p _
  by_cases h1 : p.id = v
  · have h2 : ¬ p.id = w := by rw [h1]; exact hvw
    simp [Function.comp, h1, h2, beq_iff_eq, hf, hvw, hwv]
  · by_cases h2 : p.id = w
    · simp [Function.comp, h1, h2, beq_iff_eq, hg, hvw, hwv]
    · simp [Function.comp, h1, h2, beq_iff_eq]

/-! ### Max/tie scan lemmas -/

lemma scanGo_all_lt {l : List (String × Nat)} {acc : ScanResult}
    (h : ∀ kv ∈ l, kv.2 < acc.maxVotes) : scanGo acc l = acc := by
  induction l with
  | nil => rfl
  | cons kv l ih =>
      have hkv := h kv (by simp)
      have hstep : scanStep acc kv = acc := by
        unfold scanStep
        have h1 : ¬ acc.maxVotes < kv.2 := by omega
        have h2 : ¬ (kv.2 = acc.maxVotes ∧ 0 < acc.maxVotes) := by
          rintro ⟨h2, _⟩; omega
        simp [h1, h2]
      rw [scanGo, hstep]
      exact ih (fun kv hm => h kv (by simp [hm]))

lemma scanGo_tie_stable {l : List (String × Nat)} {acc : ScanResult}
    (htie : acc.tie = true) (h : ∀ kv ∈ l, kv.2 ≤ acc.maxVotes) :
    scanGo acc l = acc := by
  induction l with
  | nil => rfl
  | cons kv l ih =>
      have hkv := h kv (by simp)
      have hstep : scanStep acc kv = acc := by
        unfold scanStep
        have h1 : ¬ acc.maxVotes < kv.2 := by omega
        by_cases h2 : kv.2 = acc.maxVotes ∧ 0 < acc.maxVotes
        · have : ScanResult.mk acc.maxVotes acc.ejectedPlayerId true = acc := by
            cases acc; simp_all
          simp [h1, h2, this]
        · simp [h1, h2]
      rw [scanGo, hstep]
      exact ih (fun kv hm => h kv (by simp [hm]))

lemma scanGo_tie_of_mem {l : List (String × Nat)} {acc : ScanResult} {M : Nat}
    (hacc : acc.maxVotes = M) (hM : 0 < M) (hle : ∀ kv ∈ l, kv.2 ≤ M)
    (hmem : ∃ kv ∈ l, kv.2 = M) : (scanGo acc l).tie = true := by
  induction l generalizing acc with
  | nil => rcases hmem with ⟨kv, hkv, _⟩; cases hkv
  | cons kv l ih =>
      by_cases hkvM : kv.2 = M
      · have hstep : scanStep acc kv = ⟨acc.maxVotes, acc.ejectedPlayerId, true⟩ := by
          unfold scanStep
          have h1 : ¬ acc.maxVotes < kv.2 := by omega
          have h2 : kv.2 = acc.maxVotes ∧ 0 < acc.maxVotes := by omega
          simp [h1, h2]
        rw [scanGo, hstep]
        rw [scanGo_tie_stable rfl]
        intro kv' hm
        have := hle kv' (by simp [hm])
        simpa [hacc] using this
      · have hstep : scanStep acc kv = acc := by
          unfold scanStep
          have hkv := hle kv (by simp)
          have h1 : ¬ acc.maxVotes < kv.2 := by omega
          have h2 : ¬ (kv.2 = acc.maxVotes ∧ 0 < acc.maxVotes) := by
            rintro ⟨h2, _⟩; omega
          simp [h1, h2]
        rw [scanGo, hstep]
        refine ih hacc (fun kv' hm => hle kv' (by simp [hm])) ?_
        rcases hmem with ⟨kv', hkv', hM'⟩
        rcases List.mem_cons.mp hkv' with h | h
        · exact absurd (h ▸ hM') hkvM
        · exact ⟨kv', h, hM'⟩

lemma scanStep_top {acc : ScanResult} {kv : String × Nat}
    (h : acc.maxVotes < kv.2) : scanStep acc kv = ⟨kv.2, some kv.1, false⟩ := by
  unfold scanStep
  rw [if_pos h]

lemma scanStep_maxVotes_lt {acc : ScanResult} {kv : String × Nat} {M : Nat}
    (hacc : acc.maxVotes < M) (hkv : kv.2 < M) :
    (scanStep acc kv).maxVotes < M := by
  unfold scanStep
  split
  · simpa using hkv
  · split <;> simpa using hacc

lemma scanGo_unique_max {l : List (String × Nat)} {acc : ScanResult}
    {M : Nat} {t : String} (hacc : acc.maxVotes < M)
    (hle : ∀ kv ∈ l, kv.2 ≤ M)
    (hcnt : l.countP (fun kv => kv.2 == M) = 1) (hmem : (t, M) ∈ l) :
    scanGo acc l = ⟨M, some t, false⟩ := by
  induction l generalizing acc with
  | nil => cases hmem
  | cons kv l ih =>
      by_cases hkvM : kv.2 = M
      · rw [List.countP_cons_of_pos _ _ (by simp [hkvM])] at hcnt
        have hl0 : l.countP (fun kv => kv.2 == M) = 0 := by omega
        have hkvt : kv = (t, M) := by
          have hne : (t, M) ∈ l → False := by
            intro h
            rw [List.countP_eq_zero] at hl0
            exact absurd (by simp : (((t, M) : String × Nat).2 == M) = true)
              (hl0 _ h)
          rcases List.mem_cons.mp hmem with h | h
          · exact h.symm
          · exact absurd h hne
        have ht1 : kv.1 = t := by rw [hkvt]
        have ht2 : kv.2 = M := by rw [hkvt]
        rw [scanGo, scanStep_top (by omega), ht1, ht2]
        apply scanGo_all_lt
        intro kv' hm
        have h1 := hle kv' (by simp [hm])
        have h2 : ¬ (kv'.2 == M) = true := by
          rw [List.countP_eq_zero] at hl0
          exact hl0 _ hm
        simp only [beq_iff_eq] at h2
        show kv'.2 < M
        omega
      · rw [List.countP_cons_of_neg _ _ (by simp [hkvM])] at hcnt
        have hl1 : l.countP (fun kv => kv.2 == M) = 1 := hcnt
        have hmem' : (t, M) ∈ l := by
          have hne : ((t, M) : String × Nat) ≠ kv := by
            intro he
            exact hkvM (by rw [← he])
          rcases List.mem_cons.mp hmem with h | h
          · exact absurd h hne
          · exact h
        have hkvlt : kv.2 < M := by
          have := hle kv (by simp)
          omega
        rw [scanGo]
        exact ih (scanStep_maxVotes_lt hacc hkvlt)
          (fun kv' hm => hle kv' (by simp [hm])) hl1 hmem'

lemma scanGo_two_at_max {l : List (String × Nat)} {acc : ScanResult}
    {M : Nat} (hacc : acc.maxVotes < M) (hle : ∀ kv ∈ l, kv.2 ≤ M)
    (hcnt : 2 ≤ l.countP (fun kv => kv.2 == M)) :
    (scanGo acc l).tie = true := by
  induction l generalizing acc with
  | nil => simp [List.countP_nil] at hcnt
  | cons kv l ih =>
      by_cases hkvM : kv.2 = M
      · rw [List.countP_cons_of_pos _ _ (by simp [hkvM])] at hcnt
        have hl1 : 1 ≤ l.countP (fun kv => kv.2 == M) := by omega
        rw [scanGo, scanStep_top (by omega)]
        apply scanGo_tie_of_mem (M := M) (by simpa using hkvM) (by omega)
        · exact fun kv' hm => hle kv' (by simp [hm])
        · rcases List.countP_pos_iff.mp (by omega :
            0 < l.countP (fun kv => kv.2 == M)) with ⟨kv', hm, hp⟩
          exact ⟨kv', hm, by simpa [beq_iff_eq] using hp⟩
      · rw [List.countP_cons_of_neg _ _ (by simp [hkvM])] at hcnt
        have hl2 : 2 ≤ l.countP (fun kv => kv.2 == M) := hcnt
        have hkvlt : kv.2 < M := by
          have := hle kv (by simp)
          omega
        rw [scanGo]
        exact ih (scanStep_maxVotes_lt hacc hkvlt)
          (fun kv' hm => hle kv' (by simp [hm])) hl2

/-! ### Unfolding lemmas for `attemptSabotage` -/

lemma attemptSabotage_eq {s : GameState} {a t : String} {now : Nat}
    {imp tgt : Player} (ha : findPlayer s a = some imp)
    (ht : findPlayer s t = some tgt)
    (hr1 : imp.role = some Role.impostor)
    (hr2 : tgt.role = some Role.crewmate) :
    attemptSabotage s a t now =
      if 0 < (30000 : Int) - ((now : Int) - (lastKillTime s a : Int)) ∧
          2 ≤ tgt.sabotageCount then
        (s, SabotageOutcome.cooldownRejected
          ((((30000 : Int) - ((now : Int) - (lastKillTime s a : Int))).toNat
            + 999) / 1000))
      else if 3 ≤ tgt.sabotageCount + 1 then
        ({ players := updatePlayer s.players t killHit,
           killCooldowns := setCooldown s.killCooldowns a now },
         SabotageOutcome.hit (tgt.sabotageCount + 1) true)
      else
        ({ s with players := updatePlayer s.players t countHit },
         SabotageOutcome.hit (tgt.sabotageCount + 1) false) := by
  unfold attemptSabotage
  rw [ha, ht]
  simp only [hr1, hr2, and_self, if_true]

lemma attemptSabotage_reject_of_cooldown {s : GameState} {a t : String}
    {now : Nat} {imp tgt : Player} (ha : findPlayer s a = some imp)
    (ht : findPlayer s t = some tgt)
    (hr1 : imp.role = some Role.impostor)
    (hr2 : tgt.role = some Role.crewmate)
    (hcd : 0 < (30000 : Int) - ((now : Int) - (lastKillTime s a : Int)))
    (hcount : 2 ≤ tgt.sabotageCount) :
    attemptSabotage s a t now =
      (s, SabotageOutcome.cooldownRejected
        ((((30000 : Int) - ((now : Int) - (lastKillTime s a : Int))).toNat
          + 999) / 1000)) := by
  rw [attemptSabotage_eq ha ht hr1 hr2, if_pos ⟨hcd, hcount⟩]

lemma attemptSabotage_ignored {s : GameState} {a t : String} {now : Nat}
    (h : ∀ imp tgt, findPlayer s a = some imp → findPlayer s t = some tgt →
      ¬(imp.role = some Role.impostor ∧ tgt.role = some Role.crewmate)) :
    attemptSabotage s a t now = (s, SabotageOutcome.ignored) := by
  unfold attemptSabotage
  cases h1 : findPlayer s a with
  | none => rfl
  | some imp =>
      cases h2 : findPlayer s t with
      | none => rfl
      | some tgt =>
          have := h imp tgt h1 h2
          simp only [this, if_false]

lemma zip_self_eq {α : Type} (l : List α) : ∀ pr ∈ l.zip l, pr.2 = pr.1 := by
  have h := zip_map_snd id l
  simpa using h

lemma alive_mono_map {ps : List Player} {g : Player → Player}
    (hg : ∀ p, (g p).isAlive = false ∨ (g p).isAlive = p.isAlive) :
    ∀ pr ∈ ps.zip (ps.map g), pr.1.isAlive = false → pr.2.isAlive = false := by
  intro pr hm hal
  have h2 := zip_map_snd g ps pr hm
  rcases hg pr.1 with h | h
  · rw [h2]
    exact h
  · rw [h2, h, hal]

lemma map_isAlive_updatePlayer {ps : List Player} {t : String}
    {g : Player → Player} (hg : ∀ p, (g p).isAlive = p.isAlive) :
    (updatePlayer ps t g).map (fun p => p.isAlive) =
      ps.map (fun p => p.isAlive) := by
  unfold updatePlayer
  rw [List.map_map]
  apply List.map_congr_left
  intro p _
  by_cases h : (p.id == t) = true <;> simp [Function.comp, h, hg]

lemma find?_updatePlayer_self {ps : List Player} {t : String}
    {f : Player → Player} {tgt : Player} (hf : ∀ p, (f p).id = p.id)
    (ht : ps.find? (fun p => p.id == t) = some tgt) :
    (updatePlayer ps t f).find? (fun p => p.id == t) = some (f tgt) := by
  unfold updatePlayer
  rw [find?_map_pred (fun p => if p.id == t then f p else p)
    (fun p => p.id == t) ?hpred ps]
  case hpred =>
    intro p
    by_cases h : (p.id == t) = true <;> simp [h, hf]
  rw [ht]
  have hid : (tgt.id == t) = true := by
    have h := List.find?_some ht
    simpa using h
  simp only [Option.map_some']
  rw [if_pos hid]

/-! ### Claim C1: sabotage accumulator, aliveness and the single kill -/

/-- Starting state for the C1 scenario: impostor `i`, fresh crewmate `t`. -/
def exC1start : GameState :=
  { players := [mkImp "i" "Imp", mkCrew "t" "Tgt"], killCooldowns := [] }

/-- The state after three sabotage hits at time 100000: the target has
accumulator 3 and is dead, and the kill timestamp 100000 is recorded. -/
def exC1kill : GameState :=
  (attemptSabotage
    (attemptSabotage
      (attemptSabotage exC1start "i" "t" 100000).1 "i" "t" 100000).1
    "i" "t" 100000).1

/-- C1, counterexample.  The claim says the accumulator increments only
while the target is alive and that a second player-killed broadcast against
the same already-dead target never happens within the round.  After the kill
(target dead at accumulator 3), an attempt 30 s later — still within the
same round — increments the dead target's accumulator to 4 and fires the
player-killed broadcast a second time. -/
theorem C1_counterexample_second_kill :
    (findPlayer exC1kill "t").map (fun p => (p.isAlive, p.sabotageCount)) =
      some (false, 3) ∧
    (attemptSabotage exC1kill "i" "t" 130000).2 = SabotageOutcome.hit 4 true ∧
    (findPlayer (attemptSabotage exC1kill "i" "t" 130000).1 "t").map
      (fun p => (p.isAlive, p.sabotageCount)) = some (false, 4) := by
  refine ⟨by decide, by decide, by decide⟩

/-- C1 (amended): under `attempt-sabotage`, (1) the player-killed broadcast
fires exactly on hits that bring the accumulator to 3 or more and (2) a hit
below 3 changes no aliveness, so the first transition to dead happens
exactly when the accumulator first reaches 3 and never earlier; (3) the
handler never revives anyone; (4) while the impostor's 30-second cooldown is
active, any attempt against a target whose accumulator is already at least 2
(in particular an already-dead target) is rejected with the remaining
seconds, so a second kill cannot happen within the cooldown window — but the
accumulator is not gated by the target's aliveness, so after the window a
dead target is hit again (see the counterexample); (5) a killing hit leaves
the target dead. -/
theorem C1_sabotage_kill_amended (s : GameState) (a t : String) (now : Nat) :
    (∀ n, (attemptSabotage s a t now).2 = SabotageOutcome.hit n true →
      3 ≤ n) ∧
    (∀ n, (attemptSabotage s a t now).2 = SabotageOutcome.hit n false →
      n < 3 ∧ (attemptSabotage s a t now).1.players.map (fun p => p.isAlive) =
        s.players.map (fun p => p.isAlive)) ∧
    (∀ pr ∈ s.players.zip (attemptSabotage s a t now).1.players,
      pr.1.isAlive = false → pr.2.isAlive = false) ∧
    (∀ imp tgt, findPlayer s a = some imp → imp.role = some Role.impostor →
      findPlayer s t = some tgt → tgt.role = some Role.crewmate →
      2 ≤ tgt.sabotageCount →
      0 < (30000 : Int) - ((now : Int) - (lastKillTime s a : Int)) →
      attemptSabotage s a t now =
        (s, SabotageOutcome.cooldownRejected
          ((((30000 : Int) - ((now : Int) - (lastKillTime s a : Int))).toNat
            + 999) / 1000))) ∧
    (∀ n tgt', (attemptSabotage s a t now).2 = SabotageOutcome.hit n true →
      findPlayer (attemptSabotage s a t now).1 t = some tgt' →
      tgt'.isAlive = false) := by
  by_cases hfound : ∃ imp tgt, findPlayer s a = some imp ∧
      findPlayer s t = some tgt ∧ imp.role = some Role.impostor ∧
      tgt.role = some Role.crewmate
  · obtain ⟨imp, tgt, ha, ht, hr1, hr2⟩ := hfound
    rw [attemptSabotage_eq ha ht hr1 hr2]
    by_cases hcd : 0 < (30000 : Int) -
        ((now : Int) - (lastKillTime s a : Int)) ∧ 2 ≤ tgt.sabotageCount
    · rw [if_pos hcd]
      refine ⟨?_, ?_, ?_, ?_, ?_⟩
      · intro n h
        cases h
      · intro n h
        cases h
      · exact fun pr hm hal => (zip_self_eq s.players pr hm) ▸ hal
      · intro imp' tgt' ha' hr1' ht' hr2' hcount' hcd'
        rfl
      · intro n tgt' h
        cases h
    · rw [if_neg hcd]
      by_cases h3 : 3 ≤ tgt.sabotageCount + 1
      · rw [if_pos h3]
        refine ⟨?_, ?_, ?_, ?_, ?_⟩
        · intro n h
          have hn : tgt.sabotageCount + 1 = n := by
            simpa using h
          omega
        · intro n h
          cases h
        · apply alive_mono_map
          intro p
          by_cases h : (p.id == t) = true <;> simp [updatePlayer, killHit, h]
        · intro imp' tgt' ha' hr1' ht' hr2' hcount' hcd'
          exfalso
          have htgt : tgt' = tgt := by
            rw [ht] at ht'
            exact (Option.some.inj ht').symm
          rw [htgt] at hcount'
          exact hcd ⟨hcd', hcount'⟩
        · intro n tgt' hout hfind
          have hfind2 : (updatePlayer s.players t killHit).find?
              (fun p => p.id == t) = some (killHit tgt) :=
            find?_updatePlayer_self (fun p => rfl) ht
          have : some tgt' = some (killHit tgt) := by
            rw [← hfind2]
            exact hfind.symm
          rw [Option.some.inj this]
          rfl
      · rw [if_neg h3]
        refine ⟨?_, ?_, ?_, ?_, ?_⟩
        · intro n h
          cases h
        · intro n h
          have hn : tgt.sabotageCount + 1 = n := by
            simpa using h
          constructor
          · omega
          · exact map_isAlive_updatePlayer (fun p => rfl)
        · apply alive_mono_map
          intro p
          by_cases h : (p.id == t) = true <;>
            simp [updatePlayer, countHit, h]
        · intro imp' tgt' ha' hr1' ht' hr2' hcount' hcd'
          exfalso
          have htgt : tgt' = tgt := by
            rw [ht] at ht'
            exact (Option.some.inj ht').symm
          rw [htgt] at hcount'
          omega
        · intro n tgt' hout
          cases hout
  · have hig : attemptSabotage s a t now = (s, SabotageOutcome.ignored) := by
      apply attemptSabotage_ignored
      intro imp tgt h1 h2 hroles
      exact hfound ⟨imp, tgt, h1, h2, hroles.1, hroles.2⟩
    rw [hig]
    refine ⟨?_, ?_, ?_, ?_, ?_⟩
    · intro n h
      cases h
    · intro n h
      cases h
    · exact fun pr hm hal => (zip_self_eq s.players pr hm) ▸ hal
    · intro imp tgt ha hr1 ht hr2 hcount hcd
      exact absurd ⟨imp, tgt, ha, ht, hr1, hr2⟩ hfound
    · intro n tgt' h
      cases h

/-- C1, witness for the amended theorem: right after the kill at 100000 (the
dead target's accumulator is 3 ≥ 2), an attempt at 120000 — 10 s of cooldown
left — is rejected, so no second kill happens inside the window. -/
theorem C1_witness :
    attemptSabotage exC1kill "i" "t" 120000 =
      (exC1kill, SabotageOutcome.cooldownRejected 10) := by
  have h := (C1_sabotage_kill_amended exC1kill "i" "t" 120000).2.2.2.1
    (mkImp "i" "Imp")
    ({ mkCrew "t" "Tgt" with sabotageCount := 3, isAlive := false })
    (by decide) (by decide) (by decide) (by decide) (by decide) (by decide)
  rw [h]
  decide

/-! ### Claim C2: cooldown guard threshold -/

/-- Concrete state for C2: impostor `i` killed at time 100000; crewmate
target `t` has sabotage accumulator 2, which is strictly below the
elimination threshold 3. -/
def exC2 : GameState :=
  { players := [mkImp "i" "Imp", { mkCrew "t" "Tgt" with sabotageCount := 2 }],
    killCooldowns := [("i", 100000)] }

/-- C2, counterexample.  The claim says an attempt whose target is below the
elimination threshold (3) increments the accumulator regardless of cooldown.
At accumulator 2 — strictly below 3 — with 20 s of cooldown left, the
attempt is instead rejected with the cooldown notice and nothing is
incremented: the guard engages at accumulator ≥ 2, not at the threshold. -/
theorem C2_counterexample_guard_below_threshold :
    (findPlayer exC2 "t").map (fun p => p.sabotageCount) = some 2 ∧
    (2 : Nat) < 3 ∧
    attemptSabotage exC2 "i" "t" 110000 =
      (exC2, SabotageOutcome.cooldownRejected 20) := by
  refine ⟨by decide, by decide, ?_⟩
  decide

/-- C2 (amended): for an impostor's attempt against a crewmate target, the
attempt is rejected with a cooldown notice carrying the remaining seconds
iff an active cooldown remains *and* the target's accumulator is at least 2
(one hit short of the threshold 3); otherwise — in particular whenever the
accumulator is at most 1 — the accumulator increments regardless of the
cooldown. -/
theorem C2_cooldown_guard_amended (s : GameState) (a t : String) (now : Nat)
    (imp tgt : Player) (ha : findPlayer s a = some imp)
    (hr1 : imp.role = some Role.impostor) (ht : findPlayer s t = some tgt)
    (hr2 : tgt.role = some Role.crewmate) :
    ((0 < (30000 : Int) - ((now : Int) - (lastKillTime s a : Int)) ∧
        2 ≤ tgt.sabotageCount) →
      attemptSabotage s a t now =
        (s, SabotageOutcome.cooldownRejected
          ((((30000 : Int) - ((now : Int) - (lastKillTime s a : Int))).toNat
            + 999) / 1000)))
    ∧ (¬(0 < (30000 : Int) - ((now : Int) - (lastKillTime s a : Int)) ∧
          2 ≤ tgt.sabotageCount) →
        (attemptSabotage s a t now).2 =
          SabotageOutcome.hit (tgt.sabotageCount + 1)
            (decide (3 ≤ tgt.sabotageCount + 1))) := by
  constructor
  · intro hcd
    exact attemptSabotage_reject_of_cooldown ha ht hr1 hr2 hcd.1 hcd.2
  · intro hncd
    rw [attemptSabotage_eq ha ht hr1 hr2, if_neg hncd]
    by_cases h3 : 3 ≤ tgt.sabotageCount + 1
    · rw [if_pos h3]
      simp [h3]
    · rw [if_neg h3]
      simp [h3]

/-- C2, witness for the amended theorem: on `exC2` (target accumulator 2,
cooldown active with 20 s left) the attempt is rejected with remaining 20. -/
theorem C2_witness :
    attemptSabotage exC2 "i" "t" 110000 =
      (exC2, SabotageOutcome.cooldownRejected 20) := by
  have h := (C2_cooldown_guard_amended exC2 "i" "t" 110000 (mkImp "i" "Imp")
    ({ mkCrew "t" "Tgt" with sabotageCount := 2 })
    (by decide) (by decide) (by decide) (by decide)).1 (by decide)
  rw [h]
  decide

/-! ### Claim C3: win evaluator and the solo round -/

/-- Concrete solo round: one participant, role crewmate, alive, no tasks
done, timer still running. -/
def exC3 : GameState := { players := [mkCrew "a" "Solo"], killCooldowns := [] }

/-- C3, counterexample.  The claim says the "impostors eliminated" outcome
requires that at least one impostor existed and that a solo round never
produces it.  In the solo round (one crewmate, nobody ever impostor, timer
at 300) the win evaluator does produce exactly that outcome. -/
theorem C3_counterexample_solo_round :
    exC3.players.length = 1 ∧
    (∀ p, p ∈ exC3.players → p.role = some Role.crewmate) ∧
    checkGameEnd exC3 300 =
      some (Winner.crewmates, "All impostors eliminated") := by
  refine ⟨by decide, ?_, by decide⟩
  intro p hp
  have : p = mkCrew "a" "Solo" := by
    rcases List.mem_cons.mp hp with h | h
    · exact h
    · cases h
  rw [this]
  decide

/-- C3 (amended): the win evaluator returns the Crewmates-win outcome with
reason "All impostors eliminated" exactly when the count of alive impostors
is zero — with no requirement that an impostor ever existed, so a solo round
(one crewmate, zero impostors) also produces this outcome. -/
theorem C3_impostors_eliminated_amended (s : GameState) (tr : Int) :
    checkGameEnd s tr = some (Winner.crewmates, "All impostors eliminated") ↔
      (s.players.filter
        (fun p => p.isAlive && p.role == some Role.impostor)).length = 0 := by
  simp only [checkGameEnd]
  by_cases h : (s.players.filter
      (fun p => p.isAlive && p.role == some Role.impostor)).length = 0
  · simp [h]
  · rw [if_neg h]
    constructor
    · intro hc
      exfalso
      by_cases h2 : (s.players.filter
          (fun p => p.isAlive && p.role == some Role.crewmate)).length ≤
          (s.players.filter
            (fun p => p.isAlive && p.role == some Role.impostor)).length
      · rw [if_pos h2] at hc
        simp at hc
      · rw [if_neg h2] at hc
        by_cases h3 : (s.players.filter
            (fun p => p.role == some Role.crewmate)).all
            (fun c => decide (3 ≤ c.taskProgress.tasksCompleted))
        · rw [if_pos h3] at hc
          simp at hc
        · rw [if_neg h3] at hc
          by_cases h4 : tr ≤ 0
          · rw [if_pos h4] at hc
            simp at hc
          · rw [if_neg h4] at hc
            cases hc
    · intro hc
      exact absurd hc h

/-! ### Claim C4: round start wipes the task-progress payload -/

lemma assignRolesAux_mem {ind : List Nat} {l : List Player} {i : Nat}
    {p : Player} (hp : p ∈ assignRolesAux ind i l) :
    ∃ r q, p = roundReset r q ∧ q ∈ l := by
  induction l generalizing i with
  | nil => cases hp
  | cons q l ih =>
      rcases List.mem_cons.mp hp with h | h
      · exact ⟨_, q, h, by simp⟩
      · rcases ih h with ⟨r, q', hq', hm⟩
        exact ⟨r, q', hq', by simp [hm]⟩

lemma assignRolesAux_map_stable (ind : List Nat) (l : List Player) (i : Nat) :
    (assignRolesAux ind i l).map (fun p => (p.id, p.name, p.tasks)) =
      l.map (fun p => (p.id, p.name, p.tasks)) := by
  induction l generalizing i with
  | nil => rfl
  | cons q l ih =>
      simp only [assignRolesAux, List.map_cons]
      rw [ih]
      rfl

/-- Concrete state for C4: player `a` has a saved task payload `"x"` and a
nonzero completed-task count. -/
def exC4 : GameState :=
  { players :=
      [ { mkCrew "a" "A" with
          taskProgress := ⟨2, ⟨true, some "x"⟩, ⟨false, none⟩, ⟨false, none⟩⟩ },
        mkCrew "b" "B" ],
    killCooldowns := [] }

/-- C4, counterexample.  The claim says round start preserves each
participant's previously saved task-progress payload and restores it.  In
the source, `start-game` overwrites the whole `taskProgress` object with a
blank literal, so player `a`'s saved payload `"x"` is destroyed and the
restore message carries only the blank state. -/
theorem C4_counterexample_payload_wiped :
    (findPlayer exC4 "a").map (fun p => p.taskProgress.task1.data) =
      some (some "x") ∧
    (findPlayer (startGame exC4 1) "a").map
      (fun p => p.taskProgress.task1.data) = some none ∧
    restoreEmits (startGame exC4 1) = [("a", freshTaskProgress)] := by
  refine ⟨by decide, by decide, by decide⟩

/-- C4 (amended): starting a round resets every participant's per-round
fields (alive, accumulator, vote) *and* the entire task-progress object —
previously saved payload data is not preserved — while ids, names and
assigned task sets are untouched; the restore-task-progress messages sent
at round start therefore all carry the blank task-progress state. -/
theorem C4_round_start_reset_amended (s : GameState) (idx : Nat)
    (h1 : 1 ≤ s.players.length) :
    (∀ p ∈ (startGame s idx).players, p.isAlive = true ∧
      p.sabotageCount = 0 ∧ p.vote = none ∧
      p.taskProgress = freshTaskProgress) ∧
    (startGame s idx).players.map (fun p => (p.id, p.name, p.tasks)) =
      s.players.map (fun p => (p.id, p.name, p.tasks)) ∧
    (∀ e ∈ restoreEmits (startGame s idx), e.2 = freshTaskProgress) := by
  have hsg : (startGame s idx).players =
      assignRolesAux (if 2 ≤ s.players.length then [idx] else []) 0
        s.players := by
    unfold startGame
    rw [if_pos h1]
  have hfields : ∀ p ∈ (startGame s idx).players, p.isAlive = true ∧
      p.sabotageCount = 0 ∧ p.vote = none ∧
      p.taskProgress = freshTaskProgress := by
    intro p hp
    rw [hsg] at hp
    rcases assignRolesAux_mem hp with ⟨r, q, hq, _⟩
    rw [hq]
    simp [roundReset]
  refine ⟨hfields, ?_, ?_⟩
  · rw [hsg]
    exact assignRolesAux_map_stable _ _ _
  · intro e he
    unfold restoreEmits at he
    rcases List.mem_filterMap.mp he with ⟨p, hp, hpe⟩
    by_cases hc : (p.role == some Role.crewmate) = true
    · rw [if_pos hc] at hpe
      have := (hfields p hp).2.2.2
      rw [← Option.some.inj hpe]
      exact this
    · rw [if_neg hc] at hpe
      cases hpe

/-- C4, witness: on the concrete two-player state the round start preserves
ids, names and task sets. -/
theorem C4_witness :
    (startGame exC4 1).players.map (fun p => (p.id, p.name, p.tasks)) =
      exC4.players.map (fun p => (p.id, p.name, p.tasks)) :=
  (C4_round_start_reset_amended exC4 1 (by decide)).2.1

/-! ### Claim C6: vote for a missing identity -/

lemma map_pair_clearVotes (ps : List Player) :
    (ps.map (fun p => { p with vote := none })).map
      (fun p => (p.id, p.isAlive)) = ps.map (fun p => (p.id, p.isAlive)) := by
  rw [List.map_map]
  apply List.map_congr_left
  intro p _
  rfl

/-- Concrete state for C6: `a` votes for the absent identity `"ghost"`. -/
def exC6 : GameState :=
  { players := [ { mkCrew "a" "A" with vote := some "ghost" }, mkCrew "b" "B" ],
    killCooldowns := [] }

/-- C6, counterexample.  The claim says that whenever no ejection occurs a
no-ejection event is broadcast.  With a single ballot for the absent
identity `"ghost"`, nobody is ejected (both players stay alive) and yet
neither a player-ejected nor a no-one-ejected event is emitted — the source
returns from the ejection branch without any broadcast. -/
theorem C6_counterexample_no_broadcast :
    (processVotes exC6).2 = VoteOutcome.silent ∧
    (processVotes exC6).1.players.map (fun p => p.isAlive) = [true, true] := by
  refine ⟨by decide, by decide⟩

/-- Concrete state for the witness's second scenario: `a` casts the lone
ballot for the empty-string identity, which is absent from the registry and
falsy in the source's ejection guard. -/
def exC6e : GameState :=
  { players := [ { mkCrew "a" "A" with vote := some "" }, mkCrew "b" "B" ],
    killCooldowns := [] }

/-- C6 (amended): vote resolution is total, and a winning identity absent
from the registry never ejects anyone — no participant's alive flag changes.
But the broadcast depends on the identity: when a *nonempty* absent identity
uniquely wins the tally nothing at all is broadcast (the source returns from
the ejection branch without an event), while the empty-string identity is
falsy in the source's `if (ejectedPlayerId && ...)` guard, so a lone ballot
for `""` falls to the no-ejection branch and broadcasts no-one-ejected with
`tie = false`. -/
theorem C6_missing_target_amended (s : GameState) (pid : String) (M : Nat)
    (hscan : scanVotes (tallyVotes s.players) = ⟨M, some pid, false⟩)
    (hM : 0 < M) (hnone : findPlayer s pid = none) :
    (pid ≠ "" →
      (processVotes s).2 = VoteOutcome.silent ∧
      (processVotes s).1.players.map (fun p => (p.id, p.isAlive)) =
        s.players.map (fun p => (p.id, p.isAlive))) ∧
    (pid = "" →
      (processVotes s).2 =
        VoteOutcome.noOneEjected false (tallyVotes s.players) ∧
      (processVotes s).1.players.map (fun p => (p.id, p.isAlive)) =
        s.players.map (fun p => (p.id, p.isAlive))) := by
  constructor
  · intro hpe
    have hstep : resolveStep s (tallyVotes s.players) (voterMap s.players)
        (scanVotes (tallyVotes s.players)) =
        (s.players, VoteOutcome.silent) := by
      rw [hscan]
      simp only [resolveStep, hnone]
      rw [if_pos ⟨hpe, hM, by simp⟩]
    have hpv : processVotes s =
        ({ s with players :=
            (s.players).map (fun p => { p with vote := none }) },
         VoteOutcome.silent) := by
      simp only [processVotes, hstep]
    rw [hpv]
    exact ⟨rfl, map_pair_clearVotes s.players⟩
  · intro hpe
    have hstep : resolveStep s (tallyVotes s.players) (voterMap s.players)
        (scanVotes (tallyVotes s.players)) =
        (s.players, VoteOutcome.noOneEjected false (tallyVotes s.players)) := by
      rw [hscan, hpe]
      simp only [resolveStep]
      rw [if_neg (by simp)]
    have hpv : processVotes s =
        ({ s with players :=
            (s.players).map (fun p => { p with vote := none }) },
         VoteOutcome.noOneEjected false (tallyVotes s.players)) := by
      simp only [processVotes, hstep]
    rw [hpv]
    exact ⟨rfl, map_pair_clearVotes s.players⟩

/-- C6, witness: the amended theorem applied to both concrete scenarios —
the ghost-vote state (nonempty absent winner, nothing broadcast) and the
empty-string ballot (no-one-ejected broadcast with `tie = false`). -/
theorem C6_witness :
    ((processVotes exC6).2 = VoteOutcome.silent ∧
      (processVotes exC6).1.players.map (fun p => (p.id, p.isAlive)) =
        exC6.players.map (fun p => (p.id, p.isAlive))) ∧
    ((processVotes exC6e).2 =
        VoteOutcome.noOneEjected false (tallyVotes exC6e.players) ∧
      (processVotes exC6e).1.players.map (fun p => (p.id, p.isAlive)) =
        exC6e.players.map (fun p => (p.id, p.isAlive))) := by
  constructor
  · exact (C6_missing_target_amended exC6 "ghost" 1 (by decide) (by decide)
      (by decide)).1 (by decide)
  · exact (C6_missing_target_amended exC6e "" 1 (by decide) (by decide)
      (by decide)).2 rfl

/-! ### Claim C9: joining with an existing identity -/

/-- Concrete registry for C9 holding identity `a` with display name Alice. -/
def exC9 : GameState :=
  { players := [mkCrew "a" "Alice"], killCooldowns := [] }

/-- C9, counterexample.  The claim says a join with an already-present
identity fails with a DuplicateIdentity error and leaves the existing record
unchanged.  The source performs an unconditional `Map.set`: joining as `a`
with name Bob silently replaces Alice's record. -/
theorem C9_counterexample_overwrite :
    exC9.players.map (fun p => (p.id, p.name)) = [("a", "Alice")] ∧
    (joinLobby exC9 "a" "Bob" []).players.map (fun p => (p.id, p.name)) =
      [("a", "Bob")] := by
  refine ⟨by decide, by decide⟩

/-- C9 (amended): adding a participant whose identity is already present
does not fail — it silently overwrites the existing record in place with a
fresh default-state record (same registry length, same position, all other
records untouched). -/
theorem C9_join_overwrites_amended (s : GameState) (pid nm : String)
    (tasks : List TaskEntry)
    (hmem : s.players.any (fun q => q.id == pid) = true) :
    (joinLobby s pid nm tasks).players.length = s.players.length ∧
    findPlayer (joinLobby s pid nm tasks) pid =
      some { id := pid, name := nm, role := none, isAlive := true,
             tasks := tasks, sabotageCount := 0,
             taskProgress := freshTaskProgress, vote := none } ∧
    (∀ pr ∈ s.players.zip (joinLobby s pid nm tasks).players,
      pr.1.id ≠ pid → pr.2 = pr.1) := by
  have hps : (joinLobby s pid nm tasks).players =
      s.players.map (fun q =>
        if q.id == pid then
          { id := pid, name := nm, role := none, isAlive := true,
            tasks := tasks, sabotageCount := 0,
            taskProgress := freshTaskProgress, vote := none }
        else q) := by
    simp only [joinLobby, mapSetPlayer, hmem, if_true]
  refine ⟨?_, ?_, ?_⟩
  · rw [hps, List.length_map]
  · unfold findPlayer
    rw [hps]
    rw [find?_map_pred _ (fun p => p.id == pid) ?hpred s.players]
    case hpred =>
      intro p
      by_cases h : (p.id == pid) = true <;> simp [h]
    have hex : ∃ q0, s.players.find? (fun p => p.id == pid) = some q0 := by
      rw [← Option.isSome_iff_exists, List.find?_isSome]
      rcases List.any_eq_true.mp hmem with ⟨x, hx, hpx⟩
      exact ⟨x, hx, hpx⟩
    rcases hex with ⟨q0, hq0⟩
    rw [hq0]
    have hid : (q0.id == pid) = true := by
      have h := List.find?_some hq0
      simpa using h
    simp only [Option.map_some']
    rw [if_pos hid]
  · intro pr hm hne
    rw [hps] at hm
    have h2 := zip_map_snd _ s.players pr hm
    rw [h2]
    have : (pr.1.id == pid) = false := by
      simp only [beq_eq_false_iff_ne]
      exact hne
    simp [this]

/-- C9, witness: joining `exC9` again as identity `a` (name Bob) keeps the
registry length and yields the fresh overwritten record. -/
theorem C9_witness :
    (joinLobby exC9 "a" "Bob" []).players.length = exC9.players.length ∧
    findPlayer (joinLobby exC9 "a" "Bob" []) "a" =
      some { id := "a", name := "Bob", role := none, isAlive := true,
             tasks := [], sabotageCount := 0,
             taskProgress := freshTaskProgress, vote := none } := by
  have h := C9_join_overwrites_amended exC9 "a" "Bob" [] (by decide)
  exact ⟨h.1, h.2.1⟩

/-! ### Claim C10: kill-cooldown entries are never removed -/

/-- C10: the kill-cooldown ledger is untouched by the return-to-lobby reset,
by a disconnect and by a round start; and a recorded kill timestamp `t0`
still rejects, with the correct remaining-seconds value, an attempt made at
any `now < t0 + 30000` against a target whose accumulator is at least 2 —
in particular a kill recorded less than 30 s before a new round starts still
gates the impostor's threshold-triggering sabotage in the new round. -/
theorem C10_killCooldowns_persist (s : GameState) (q : String) (idx : Nat)
    (a t : String) (now t0 : Nat) (imp tgt : Player) :
    (lobbyReset s).killCooldowns = s.killCooldowns ∧
    (disconnect s q).killCooldowns = s.killCooldowns ∧
    (startGame s idx).killCooldowns = s.killCooldowns ∧
    (findPlayer s a = some imp → imp.role = some Role.impostor →
      findPlayer s t = some tgt → tgt.role = some Role.crewmate →
      s.killCooldowns.lookup a = some t0 →
      (now : Int) < (t0 : Int) + 30000 → 2 ≤ tgt.sabotageCount →
      attemptSabotage s a t now =
        (s, SabotageOutcome.cooldownRejected
          ((((30000 : Int) - ((now : Int) - (t0 : Int))).toNat + 999)
            / 1000))) := by
  refine ⟨rfl, ?_, ?_, ?_⟩
  · unfold disconnect
    cases h : findPlayer s q <;> rfl
  · unfold startGame
    by_cases h : 1 ≤ s.players.length
    · rw [if_pos h]
    · rw [if_neg h]
  · intro ha hr1 ht hr2 hlk hnow hcount
    have hlast : lastKillTime s a = t0 := by
      unfold lastKillTime
      rw [hlk]
      rfl
    have hcd : 0 < (30000 : Int) - ((now : Int) - (lastKillTime s a : Int)) := by
      rw [hlast]
      omega
    have := attemptSabotage_reject_of_cooldown ha ht hr1 hr2 hcd hcount
    rw [this, hlast]

/-- C10, witness: a kill recorded at 100000 survives the lobby reset, a
disconnect and a round start, and an attempt at 110000 against a target at
accumulator 2 is rejected with 20 s remaining. -/
theorem C10_witness :
    (lobbyReset exC2).killCooldowns = exC2.killCooldowns ∧
    (disconnect exC2 "x").killCooldowns = exC2.killCooldowns ∧
    (startGame exC2 0).killCooldowns = exC2.killCooldowns ∧
    attemptSabotage exC2 "i" "t" 110000 =
      (exC2, SabotageOutcome.cooldownRejected
        ((((30000 : Int) - ((110000 : Nat) : Int) + ((100000 : Nat) : Int)).toNat
          + 999) / 1000)) := by
  have h := C10_killCooldowns_persist exC2 "x" 0 "i" "t" 110000 100000
    (mkImp "i" "Imp") ({ mkCrew "t" "Tgt" with sabotageCount := 2 })
  refine ⟨h.1, h.2.1, h.2.2.1, ?_⟩
  have h4 := h.2.2.2 (by decide) (by decide) (by decide) (by decide)
    (by decide) (by decide) (by decide)
  rw [h4]
  congr 1

/-! ### Claim C5: vote resolution (unique leader and tie) -/

lemma map_pair_eject (ps : List Player) (t : String) :
    ((updatePlayer ps t (fun p => { p with isAlive := false })).map
      (fun p => { p with vote := none })).map (fun p => (p.id, p.isAlive)) =
      ps.map (fun p => (p.id, p.isAlive && !(p.id == t))) := by
  unfold updatePlayer
  rw [List.map_map, List.map_map]
  apply List.map_congr_left
  intro p _
  by_cases h : (p.id == t) = true <;> simp [Function.comp, h]

/-- Concrete 4-ballot tie for C5: `a` and `b` vote for `c`; `c` and `d` vote
for `a`; every target gets 2 of the 4 votes. -/
def exC5 : GameState :=
  { players :=
      [ { mkCrew "a" "A" with vote := some "c" },
        { mkCrew "b" "B" with vote := some "c" },
        { mkCrew "c" "C" with role := some Role.impostor, vote := some "a" },
        { mkCrew "d" "D" with vote := some "a" } ],
    killCooldowns := [] }

/-- C5: vote resolution over the tally of non-null votes.  If some target
holds a unique strictly-highest count `M > 0` (every tally entry is at most
`M` and exactly one entry reaches `M`) and that target is still registered,
exactly that participant's alive flag is set to false and the player-ejected
event (identity, name, role, tally, per-voter map) is emitted; if two or
more entries tie for the maximum (`M > 0`), nobody's alive flag changes and
the no-one-ejected outcome with `tie = true` is emitted — in particular two
targets at 2 votes each out of 4 ballots eject nobody (see the witness).
The winning identity is required to be nonempty: registry keys are socket
ids, which are never the empty string — the one value the source's
truthiness guard would drop. -/
theorem C5_vote_resolution (s : GameState) :
    (∀ t M tp, t ≠ "" → (t, M) ∈ tallyVotes s.players → 0 < M →
      (∀ kv ∈ tallyVotes s.players, kv.2 ≤ M) →
      (tallyVotes s.players).countP (fun kv => kv.2 == M) = 1 →
      findPlayer s t = some tp →
      (processVotes s).2 = VoteOutcome.ejected t tp.name tp.role
        (tallyVotes s.players) (voterMap s.players) ∧
      (processVotes s).1.players.map (fun p => (p.id, p.isAlive)) =
        s.players.map (fun p => (p.id, p.isAlive && !(p.id == t)))) ∧
    (∀ M, 0 < M → (∀ kv ∈ tallyVotes s.players, kv.2 ≤ M) →
      2 ≤ (tallyVotes s.players).countP (fun kv => kv.2 == M) →
      (processVotes s).2 =
        VoteOutcome.noOneEjected true (tallyVotes s.players) ∧
      (processVotes s).1.players.map (fun p => (p.id, p.isAlive)) =
        s.players.map (fun p => (p.id, p.isAlive))) := by
  constructor
  · intro t M tp ht0 hmem hpos hle hcnt hfind
    have hscan : scanVotes (tallyVotes s.players) = ⟨M, some t, false⟩ := by
      unfold scanVotes
      exact scanGo_unique_max (by simpa using hpos) hle hcnt hmem
    have hstep : resolveStep s (tallyVotes s.players) (voterMap s.players)
        (scanVotes (tallyVotes s.players)) =
        (updatePlayer s.players t (fun p => { p with isAlive := false }),
         VoteOutcome.ejected t tp.name tp.role (tallyVotes s.players)
           (voterMap s.players)) := by
      rw [hscan]
      simp only [resolveStep, hfind]
      rw [if_pos ⟨ht0, hpos, by simp⟩]
    have hpv : processVotes s =
        ({ s with players :=
            ((updatePlayer s.players t
              (fun p => { p with isAlive := false })).map
              (fun p => { p with vote := none })) },
         VoteOutcome.ejected t tp.name tp.role (tallyVotes s.players)
           (voterMap s.players)) := by
      simp only [processVotes, hstep]
    rw [hpv]
    exact ⟨rfl, map_pair_eject s.players t⟩
  · intro M hpos hle hcnt
    have htie : (scanVotes (tallyVotes s.players)).tie = true := by
      unfold scanVotes
      exact scanGo_two_at_max (by simpa using hpos) hle hcnt
    have hstep : resolveStep s (tallyVotes s.players) (voterMap s.players)
        (scanVotes (tallyVotes s.players)) =
        (s.players, VoteOutcome.noOneEjected true (tallyVotes s.players)) := by
      cases hsc : scanVotes (tallyVotes s.players) with
      | mk mv ej tie =>
          rw [hsc] at htie
          simp only at htie
          cases ej with
          | none =>
              simp only [resolveStep, htie]
          | some pid =>
              simp only [resolveStep, htie]
              rw [if_neg (by simp)]
    have hpv : processVotes s =
        ({ s with players :=
            s.players.map (fun p => { p with vote := none }) },
         VoteOutcome.noOneEjected true (tallyVotes s.players)) := by
      simp only [processVotes, hstep]
    rw [hpv]
    exact ⟨rfl, map_pair_clearVotes s.players⟩

/-- C5, witness: the 2-2 tie out of 4 ballots resolves to the no-one-ejected
outcome with the tie flag and ejects nobody. -/
theorem C5_witness :
    (processVotes exC5).2 =
      VoteOutcome.noOneEjected true (tallyVotes exC5.players) ∧
    (processVotes exC5).1.players.map (fun p => (p.id, p.isAlive)) =
      exC5.players.map (fun p => (p.id, p.isAlive)) :=
  (C5_vote_resolution exC5).2 2 (by decide) (by decide) (by decide)

/-! ### Claim C7: role counts and task sampling -/

lemma startGame_players_eq {s : GameState} {idx : Nat}
    (h1 : 1 ≤ s.players.length) :
    (startGame s idx).players =
      assignRolesAux (if 2 ≤ s.players.length then [idx] else []) 0
        s.players := by
  unfold startGame
  rw [if_pos h1]

lemma assignRolesAux_count_nil (l : List Player) (i : Nat) :
    (assignRolesAux [] i l).countP
      (fun p => p.role == some Role.impostor) = 0 := by
  induction l generalizing i with
  | nil => rfl
  | cons p l ih =>
      simp only [assignRolesAux]
      rw [List.countP_cons_of_neg _ _ (by simp [roundReset])]
      exact ih (i + 1)

lemma assignRolesAux_count_one (l : List Player) (i k : Nat) :
    (assignRolesAux [k] i l).countP
      (fun p => p.role == some Role.impostor) =
      if i ≤ k ∧ k < i + l.length then 1 else 0 := by
  induction l generalizing i with
  | nil =>
      simp only [assignRolesAux, List.countP_nil, List.length_nil]
      rw [if_neg (by omega)]
  | cons p l ih =>
      simp only [assignRolesAux, List.length_cons]
      by_cases hik : i = k
      · have hc : ([k].contains i) = true := by simp [hik]
        rw [hc]
        rw [List.countP_cons_of_pos _ _ (by simp [roundReset])]
        rw [ih]
        rw [if_neg (by omega), if_pos (by omega)]
      · have hc : ([k].contains i) = false := by simp [hik]
        rw [hc]
        rw [List.countP_cons_of_neg _ _ (by simp [roundReset])]
        rw [ih]
        by_cases h2 : i + 1 ≤ k ∧ k < i + 1 + l.length
        · rw [if_pos h2, if_pos (by omega)]
        · rw [if_neg h2, if_neg (by omega)]

/-- Concrete three-player lobby for C7. -/
def exC7 : GameState :=
  { players := [mkCrew "a" "A", mkCrew "b" "B", mkCrew "c" "C"],
    killCooldowns := [] }

/-- C7: starting a round with N ≥ 1 participants assigns role impostor to
exactly one participant when N ≥ 2 and to zero participants when N = 1
(every participant holds one of the two roles); and any 3-task draw from a
shuffle of the static catalog consists of exactly 3 distinct tasks, all from
the catalog. -/
theorem C7_roles_and_tasks (s : GameState) (idx : Nat)
    (shuffled : List TaskEntry) (hidx : idx < s.players.length)
    (hperm : shuffled.Perm CREWMATE_TASKS) :
    ((startGame s idx).players.countP
      (fun p => p.role == some Role.impostor) =
      if 2 ≤ s.players.length then 1 else 0) ∧
    (∀ p ∈ (startGame s idx).players,
      p.role = some Role.impostor ∨ p.role = some Role.crewmate) ∧
    (getRandomTasks shuffled 3).length = 3 ∧
    (getRandomTasks shuffled 3).Nodup ∧
    (∀ task ∈ getRandomTasks shuffled 3, task ∈ CREWMATE_TASKS) := by
  have h1 : 1 ≤ s.players.length := by omega
  have hsg : (startGame s idx).players =
      assignRolesAux (if 2 ≤ s.players.length then [idx] else []) 0
        s.players := startGame_players_eq h1
  have hlen : shuffled.length = 5 := by
    rw [hperm.length_eq]
    rfl
  refine ⟨?_, ?_, ?_, ?_, ?_⟩
  · rw [hsg]
    by_cases h2 : 2 ≤ s.players.length
    · rw [if_pos h2, if_pos h2, assignRolesAux_count_one]
      rw [if_pos (by omega)]
    · rw [if_neg h2, if_neg h2, assignRolesAux_count_nil]
  · intro p hp
    rw [hsg] at hp
    rcases assignRolesAux_mem hp with ⟨r, q, hq, _⟩
    rw [hq]
    cases r
    · left
      rfl
    · right
      rfl
  · unfold getRandomTasks
    rw [List.length_take, hlen]
    rfl
  · unfold getRandomTasks
    have hnd : shuffled.Nodup := by
      rw [hperm.nodup_iff]
      decide
    exact (List.take_sublist 3 shuffled).nodup hnd
  · intro task htask
    unfold getRandomTasks at htask
    have hmem : task ∈ shuffled :=
      List.mem_of_mem_take htask
    exact hperm.mem_iff.mp hmem

/-- C7, witness: the three-player lobby gets exactly one impostor, and the
identity shuffle of the catalog yields a 3-task draw of length 3. -/
theorem C7_witness :
    ((startGame exC7 1).players.countP
      (fun p => p.role == some Role.impostor) =
      if 2 ≤ exC7.players.length then 1 else 0) ∧
    (getRandomTasks CREWMATE_TASKS 3).length = 3 := by
  have h := C7_roles_and_tasks exC7 1 CREWMATE_TASKS (by decide)
    (List.Perm.refl _)
  exact ⟨h.1, h.2.2.1⟩

/-! ### Claim C8: vote resolution is order-independent -/

/-- A sequence of `submit-vote` actions applied in order. -/
def applyVotes (s : GameState) (calls : List (String × Option String)) :
    GameState :=
  calls.foldl (fun st c => submitVote st c.1 c.2) s

lemma submitVote_of_none {s : GameState} {v : String} (a : Option String)
    (h : findPlayer s v = none) : submitVote s v a = s := by
  unfold submitVote
  rw [h]

lemma submitVote_of_dead {s : GameState} {v : String} (a : Option String)
    {p : Player} (h : findPlayer s v = some p) (hd : ¬ p.isAlive = true) :
    submitVote s v a = s := by
  unfold submitVote
  rw [h]
  simp only [if_neg hd]

lemma submitVote_of_alive {s : GameState} {v : String} (a : Option String)
    {p : Player} (h : findPlayer s v = some p) (ha : p.isAlive = true) :
    submitVote s v a =
      { s with
        players := updatePlayer s.players v (fun q => { q with vote := a }) } := by
  unfold submitVote
  rw [h]
  simp only [if_pos ha]

lemma findPlayer_submitVote_ne {s : GameState} {v w : String}
    (b : Option String) (hvw : v ≠ w) :
    findPlayer (submitVote s w b) v = findPlayer s v := by
  cases h2 : findPlayer s w with
  | none => rw [submitVote_of_none b h2]
  | some q =>
      by_cases hq : q.isAlive = true
      · rw [submitVote_of_alive b h2 hq]
        unfold findPlayer
        exact find?_updatePlayer_ne (fun q => { q with vote := b })
          (fun p => rfl) hvw
      · rw [submitVote_of_dead b h2 hq]

lemma submitVote_comm {s : GameState} {v w : String} {a b : Option String}
    (hvw : v ≠ w) :
    submitVote (submitVote s v a) w b = submitVote (submitVote s w b) v a := by
  cases h1 : findPlayer s v with
  | none =>
      rw [submitVote_of_none a h1]
      rw [submitVote_of_none a
        ((findPlayer_submitVote_ne b hvw).trans h1)]
  | some p =>
      by_cases hp : p.isAlive = true
      · cases h2 : findPlayer s w with
        | none =>
            rw [submitVote_of_none b h2]
            rw [submitVote_of_alive a h1 hp]
            rw [submitVote_of_none b]
            unfold findPlayer
            rw [find?_updatePlayer_ne (fun q => { q with vote := a })
              (fun r => rfl) (Ne.symm hvw)]
            exact h2
        | some q =>
            by_cases hq : q.isAlive = true
            · rw [submitVote_of_alive a h1 hp, submitVote_of_alive b h2 hq]
              rw [submitVote_of_alive b
                (p := q) (by
                  show findPlayer _ w = some q
                  unfold findPlayer
                  rw [find?_updatePlayer_ne (fun r => { r with vote := a })
                    (fun r => rfl) (Ne.symm hvw)]
                  exact h2) hq]
              rw [submitVote_of_alive a
                (p := p) (by
                  show findPlayer _ v = some p
                  unfold findPlayer
                  rw [find?_updatePlayer_ne (fun r => { r with vote := b })
                    (fun r => rfl) hvw]
                  exact h1) hp]
              show GameState.mk _ s.killCooldowns = GameState.mk _ s.killCooldowns
              congr 1
              exact updatePlayer_comm (fun r => rfl) (fun r => rfl) hvw
            · rw [submitVote_of_dead b h2 hq]
              rw [submitVote_of_alive a h1 hp]
              rw [submitVote_of_dead b
                (p := q) (by
                  show findPlayer _ w = some q
                  unfold findPlayer
                  rw [find?_updatePlayer_ne (fun r => { r with vote := a })
                    (fun r => rfl) (Ne.symm hvw)]
                  exact h2) hq]
      · rw [submitVote_of_dead a h1 hp]
        rw [submitVote_of_dead a
          (p := p) ((findPlayer_submitVote_ne b hvw).trans h1) hp]

/-- Concrete submit-vote sequences for C8: the same two ballots in the two
possible orders. -/
def exCallsAB : List (String × Option String) :=
  [("a", some "c"), ("b", some "c")]

/-- The swapped order of `exCallsAB`. -/
def exCallsBA : List (String × Option String) :=
  [("b", some "c"), ("a", some "c")]

/-- C8: for any two permutations of the same list of `submit-vote` calls by
pairwise-distinct voters, applying the calls and resolving yields the same
state and the same outcome (ejected identity or tie). -/
theorem C8_vote_order_independent (s : GameState)
    (calls calls' : List (String × Option String))
    (hnd : (calls.map Prod.fst).Nodup) (hperm : calls.Perm calls') :
    processVotes (applyVotes s calls) = processVotes (applyVotes s calls') := by
  have happ : applyVotes s calls = applyVotes s calls' := by
    unfold applyVotes
    refine hperm.foldl_eq' ?_ s
    intro x hx y hy z
    by_cases hxy : x = y
    · rw [hxy]
    · have hne : x.1 ≠ y.1 := by
        intro he
        exact hxy (List.inj_on_of_nodup_map hnd hx hy he)
      exact submitVote_comm hne
  rw [happ]

/-- C8, witness: the two orders of the same two ballots on the three-player
lobby resolve identically. -/
theorem C8_witness :
    processVotes (applyVotes exC7 exCallsAB) =
      processVotes (applyVotes exC7 exCallsBA) :=
  C8_vote_order_independent exC7 exCallsAB exCallsBA (by decide) (by decide)

end CyberAmongUs
